import Mathlib

/-!
Verification of the scalefx host-side transfer/sync scripts
(controllers/hubfx/pico/scripts and tests), shallowly embedded in Lean.

Bytes are modelled as `Nat` (the value of the byte), byte strings as
`List Nat`, text lines as `String` (or `List Char` where character-level
scanning happens in the source). Polling timeouts are modelled by
exhaustion of the finite list of lines/reads the channel will deliver
within the wait window.
-/

namespace ScaleFX

/-- Helper for Python `needle in hay`: does `hay` start with `needle`? -/
def begWith {α : Type} [BEq α] : List α → List α → Bool
  | [], _ => true
  | _ :: _, [] => false
  | a :: as, b :: bs => a == b && begWith as bs

/-- Python `needle in hay` (substring containment on lists). -/
def hasSub {α : Type} [BEq α] (needle : List α) : List α → Bool
  | [] => begWith needle []
  | b :: bs => begWith needle (b :: bs) || hasSub needle bs

/-- Python `needle in hay` on strings. -/
def strContains (hay needle : String) : Bool := hasSub needle.toList hay.toList

/-- Python `s.startswith(pre)` on strings. -/
def strBegWith (s pre : String) : Bool := begWith pre.toList s.toList

/-- Byte values of an ASCII string (models `b'...'` literals). -/
def bytesOf (s : String) : List Nat := s.toList.map Char.toNat

/-- Character list of a string literal (Python `str` values). -/
def strL (s : String) : List Char := s.toList

/-- Marker bytes `b'PROGRESS:'` from download_file.py. -/
def progressMarker : List Nat := bytesOf "PROGRESS:"

/-- Marker bytes `b'SUCCESS:'` from download_file.py. -/
def successMarker : List Nat := bytesOf "SUCCESS:"

/-- Python `bytes.split(sep)` with a single-byte separator. -/
def pySplit (sep : Nat) : List Nat → List (List Nat)
  | [] => [[]]
  | b :: bs =>
    if b == sep then [] :: pySplit sep bs
    else
      match pySplit sep bs with
      | [] => [[b]]
      | p :: ps => (b :: p) :: ps

/--
The per-part demultiplexing loop of `download_file.download_file`
(`for i, part in enumerate(parts)`): a part containing `PROGRESS:` or
`SUCCESS:` is logged and discarded; a part that is not the last one, or is
empty, is skipped (`continue`); only a non-empty, non-marker last part is
written. Returns the bytes written to the destination file.
-/
def demuxParts : List (List Nat) → List Nat
  | [] => []
  | [p] =>
    if hasSub progressMarker p || hasSub successMarker p then []
    else if p.isEmpty then [] else p
  | _ :: q :: rest => demuxParts (q :: rest)

/--
One iteration body of the download receive loop on a raw read `chunk`:
if the chunk contains a newline byte (10) it is split on newlines and fed
to `demuxParts`; otherwise the whole chunk is written as binary payload.
-/
def demuxChunk (chunk : List Nat) : List Nat :=
  if chunk.contains 10 then demuxParts (pySplit 10 chunk) else chunk

/--
The download receive loop (`while bytes_received < file_size`) of
`download_file.download_file`, over the list of raw reads the channel will
deliver. `none` models the loop never reaching `file_size` bytes (the
channel is exhausted while the loop still waits for more data); `some w`
is the final content written to the local file.
-/
def downloadLoop (fileSize : Nat) : List (List Nat) → List Nat → Option (List Nat)
  | [], acc => if acc.length < fileSize then none else some acc
  | c :: rest, acc =>
    if acc.length < fileSize then downloadLoop fileSize rest (acc ++ demuxChunk c)
    else some acc

/-- Fuel-indexed chunking of a byte list into `n`-byte pieces (the
`f.read(chunk_size)` loop); with fuel at least the list length and
`0 < n` it is total. -/
def chunksOfAux (n : Nat) : Nat → List Nat → List (List Nat)
  | 0, _ => []
  | _ + 1, [] => []
  | fuel + 1, b :: bs => ((b :: bs).take n) :: chunksOfAux n fuel ((b :: bs).drop n)

/-- Chunking of a byte list into `n`-byte pieces. -/
def chunksOf (n : Nat) (l : List Nat) : List (List Nat) := chunksOfAux n l.length l

/--
The upload send loop of `upload_file.upload_file` and
`SoundSyncer.upload_file` (`chunk_size = 512`; `while bytes_sent <
file_size: chunk = f.read(chunk_size); ser.write(chunk)`): the list of
chunks written to the channel.
-/
def uploadChunks (l : List Nat) : List (List Nat) := chunksOf 512 l

/-- Payload a raw read contributes under the stated stream discipline:
a read containing a newline contributes nothing, a newline-free read is
all payload. -/
def payloadOf (c : List Nat) : List Nat := if c.contains 10 then [] else c

/-- Predicate for a status line as the device emits it (before framing):
a marker line with no interior newline byte. -/
def markerLine (m : List Nat) : Bool :=
  (hasSub progressMarker m || hasSub successMarker m) && !(m.contains 10)

/-- A well-formed raw read: either pure binary payload (no newline byte),
or a newline-terminated marker line. -/
def wellChunk (c : List Nat) : Bool :=
  !(c.contains 10) || (c.getLast? == some 10 && markerLine c.dropLast)

/-- Result of the per-chunk wait loop in
`test_flash_flow_control.upload_with_flow_control`. -/
inductive FCWaitR : Type
  | cont (rest : List String)
  | errAbort
  | noResp
deriving DecidableEq

/--
The per-chunk wait loop of
`test_flash_flow_control.upload_with_flow_control`: read lines until one
starts with `NEXT:` or contains `SUCCESS` (continue with the rest of the
stream), a line containing `ERROR` aborts, and exhausting the window
(`time.time() < timeout` fails) is no response. Empty lines are skipped.
-/
def fcWait : List String → FCWaitR
  | [] => .noResp
  | l :: ls =>
    if l == "" then fcWait ls
    else if strBegWith l "NEXT:" then .cont ls
    else if strContains l "SUCCESS" then .cont ls
    else if strContains l "ERROR" then .errAbort
    else fcWait ls

/-- The chunk-send loop of `upload_with_flow_control` over the already
chunked file: send a chunk, then run the per-chunk wait; `NEXT:`/`SUCCESS`
continues, `ERROR` or no response returns failure. Returns the bytes
written to the channel and the boolean result of the function. -/
def uploadFCChunks : List (List Nat) → List String → List Nat → List Nat × Bool
  | [], _, sent => (sent, true)
  | c :: cs, lines, sent =>
    match fcWait lines with
    | .cont rest => uploadFCChunks cs rest (sent ++ c)
    | .errAbort => (sent ++ c, false)
    | .noResp => (sent ++ c, false)

/-- `upload_with_flow_control` after the READY handshake: the file is sent
in `CHUNK_SIZE = 64` byte chunks under the per-chunk-token discipline. -/
def uploadFC (content : List Nat) (lines : List String) : List Nat × Bool :=
  uploadFCChunks (chunksOf 64 content) lines []

/-- Result of a READY wait. -/
inductive ReadyR : Type
  | ready
  | deviceError
  | notReady
deriving DecidableEq

/--
The READY wait of `SoundSyncer.upload_file` (sync_sounds.py) and
`ConfigUploader.upload_file` (upload_config.py): a line containing `READY`
succeeds, a line containing `ERROR` returns failure, exhausting the 5s
window is not-ready.
-/
def readyWaitSync : List String → ReadyR
  | [] => .notReady
  | l :: ls =>
    if strContains l "READY" then .ready
    else if strContains l "ERROR" then .deviceError
    else readyWaitSync ls

/--
The READY wait of `upload_file.upload_file` (upload_file.py): only a line
exactly equal to `READY` breaks the loop; every other line (including
lines containing `ERROR`) is appended to `response` and the loop keeps
waiting; exhausting the 5s window prints `Device not ready` and fails.
-/
def readyWaitScript : List String → ReadyR
  | [] => .notReady
  | l :: ls => if l == "READY" then .ready else readyWaitScript ls

/-- Result of the final completion wait. -/
inductive CompletionR : Type
  | success
  | deviceError
  | statusUnclear
deriving DecidableEq

/--
The completion wait of `upload_file.upload_file` and
`SoundSyncer.upload_file`: a line containing `SUCCESS` is success, a line
containing `ERROR` is failure, exhausting the 10s window is the
status-unclear timeout (logged as such, then the function returns False).
-/
def completionScan : List String → CompletionR
  | [] => .statusUnclear
  | l :: ls =>
    if strContains l "SUCCESS" then .success
    else if strContains l "ERROR" then .deviceError
    else completionScan ls

/-- Distinguishable outcomes of one upload call. -/
inductive UploadR : Type
  | ok
  | notReady
  | deviceError
  | statusUnclear
deriving DecidableEq

/-- Outcome of `SoundSyncer.upload_file` given the lines available in the
READY window and in the completion window. -/
def syncUploadResult (readyLines complLines : List String) : UploadR :=
  match readyWaitSync readyLines with
  | .ready =>
    match completionScan complLines with
    | .success => .ok
    | .deviceError => .deviceError
    | .statusUnclear => .statusUnclear
  | .deviceError => .deviceError
  | .notReady => .notReady

/-- The Boolean value `upload_file` actually returns for each outcome:
True only on success; not-ready, device error and the status-unclear
timeout all return False. -/
def uploadReturn : UploadR → Bool
  | .ok => true
  | _ => false

/-- `SoundSyncer.upload_file` including the data phase: the chunks written
to the channel (none if READY never came) and the outcome. -/
def syncUploadRun (content : List Nat) (readyLines complLines : List String) :
    List (List Nat) × UploadR :=
  (if readyWaitSync readyLines = .ready then uploadChunks content else [],
   syncUploadResult readyLines complLines)

/-- The `self.stats` dictionary of `SoundSyncer`. -/
structure Stats : Type where
  uploaded : Nat
  skipped : Nat
  deleted : Nat
  errors : Nat
  bytesTransferred : Nat
deriving DecidableEq

/-- Stats at `SoundSyncer` construction. -/
def initStats : Stats := ⟨0, 0, 0, 0, 0⟩

/-- Reason recorded in the upload plan. -/
inductive UploadReason : Type
  | fileNew
  | fileModified
deriving DecidableEq

/--
The upload phase of `SoundSyncer.sync` (`for i, (name, size, reason) in
enumerate(to_upload, 1)`): each planned file is attempted; on success
`uploaded` is incremented and `bytes_transferred` grows by the file size
(done inside `upload_file`), on failure `errors` is incremented; the loop
always proceeds to the next file.
-/
def syncUploadLoop (result : List Char → Bool) :
    List (List Char × Nat × UploadReason) → Stats → Stats
  | [], st => st
  | (name, size, _) :: rest, st =>
    if result name then
      syncUploadLoop result rest
        { st with uploaded := st.uploaded + 1,
                  bytesTransferred := st.bytesTransferred + size }
    else
      syncUploadLoop result rest { st with errors := st.errors + 1 }

/-- The summary banner printed at the end of `sync_sounds.main`. -/
def syncSummaryBanner (st : Stats) : String :=
  if st.errors == 0 then "Sync Complete!" else "Sync Complete (with errors)"

/-- Process exit status of a `sync_sounds.main` run whose sync completed
without an exception: `main` falls off its end without calling
`sys.exit`, so the interpreter exits 0 whatever the stats hold. -/
def syncMainExitCode (_ : Stats) : Nat := 0

/-- Process exit status of the standalone upload script
(`sys.exit(0 if success else 1)` in upload_file.py `__main__`). -/
def uploadScriptExitCode (success : Bool) : Nat := if success then 0 else 1

/-- Python `str.lower()` on ASCII paths. -/
def lowerStr (s : List Char) : List Char := s.map Char.toLower

/-- Python dict assignment `d[k] = v`: overwrite in place if the key is
present, else append. -/
def dictInsert {β : Type} (d : List (List Char × β)) (k : List Char) (v : β) :
    List (List Char × β) :=
  if d.any (fun p => p.1 == k) then
    d.map (fun p => if p.1 == k then (k, v) else p)
  else d ++ [(k, v)]

/-- Python `d.get(k)` on the association lists built by `dictInsert`. -/
def dictGet {β : Type} (d : List (List Char × β)) (k : List Char) : Option β :=
  d.foldl (fun acc p => if p.1 == k then some p.2 else acc) none

/-- `SoundSyncer.get_local_files`: map each relative path to its
lowercased key, keeping the original-case path and the size
(`files[rel_path.lower()] = (rel_path, size)`). -/
def get_local_files (tree : List (List Char × Nat)) :
    List (List Char × List Char × Nat) :=
  tree.foldl (fun acc p => dictInsert acc (lowerStr p.1) (p.1, p.2)) []

/-- The dict comprehension `{k.lower(): v for k, v in remote_files.items()}`
of `SoundSyncer.sync`. -/
def remoteLowerDict (remote : List (List Char × Nat)) : List (List Char × Nat) :=
  remote.foldl (fun acc p => dictInsert acc (lowerStr p.1) p.2) []

/--
The comparison loop of `SoundSyncer.sync`: for each local entry, a missing
remote size classifies as new, a differing size as modified, a matching
size as skip (the code increments `stats["skipped"]`; the skip list here
records which entries hit that branch). Returns `(to_upload, to_skip)` in
iteration order.
-/
def syncPlan (remoteLower : List (List Char × Nat)) :
    List (List Char × List Char × Nat) →
      List (List Char × Nat × UploadReason) × List (List Char)
  | [] => ([], [])
  | (k, orig, size) :: rest =>
    let res := syncPlan remoteLower rest
    match dictGet remoteLower k with
    | none => ((orig, size, .fileNew) :: res.1, res.2)
    | some r =>
      if r ≠ size then ((orig, size, .fileModified) :: res.1, res.2)
      else (res.1, orig :: res.2)

/-- Drop characters before the first brace; models
`start = response.find(Char.ofNat 123)` returning the suffix from `start`
(`none` when absent). -/
def dropBefore : List Char → Option (List Char)
  | [] => none
  | c :: rest => if c = '{' then some (c :: rest) else dropBefore rest

/-- The depth-tracking scan of `SoundSyncer.send_json_command`: starting
at the first brace, increment on an opening brace, decrement on a closing
one, and return the consumed span when depth reaches 0; `none` when the
response ends unbalanced. -/
def braceScan (depth : Int) : List Char → List Char → Option (List Char)
  | _, [] => none
  | acc, c :: rest =>
    if c = '{' then braceScan (depth + 1) (acc ++ [c]) rest
    else if c = '}' then
      if depth - 1 = 0 then some (acc ++ [c])
      else braceScan (depth - 1) (acc ++ [c]) rest
    else braceScan depth (acc ++ [c]) rest

/-- The JSON-candidate extraction of `SoundSyncer.send_json_command`:
scan for the first opening brace only, track brace depth to the matching
close. -/
def extractBraced (resp : List Char) : Option (List Char) :=
  (dropBefore resp).bind (braceScan 0 [])

/-- `SoundSyncer.send_json_command` after the raw exchange:
the extracted candidate is handed to the JSON parser; a parse failure
(`json.JSONDecodeError`) or no candidate yields `none`. -/
def send_json_command {J : Type} (parse : List Char → Option J)
    (resp : List Char) : Option J :=
  (extractBraced resp).bind parse

/-- Modelled from the spec: extraction that scans for the first `\x7b` or
`[` and tracks bracket depth to the matching close — the behaviour the
spec describes, for comparison with `extractBraced`. -/
def dropBeforeAny : List Char → Option (List Char)
  | [] => none
  | c :: rest => if c = '{' ∨ c = '[' then some (c :: rest) else dropBeforeAny rest

/-- Modelled from the spec: depth scan over both bracket kinds, the
counterpart of `braceScan` for the extraction the spec describes. -/
def bracketScanSpec (depth : Int) : List Char → List Char → Option (List Char)
  | _, [] => none
  | acc, c :: rest =>
    if c = '{' ∨ c = '[' then bracketScanSpec (depth + 1) (acc ++ [c]) rest
    else if c = '}' ∨ c = ']' then
      if depth - 1 = 0 then some (acc ++ [c])
      else bracketScanSpec (depth - 1) (acc ++ [c]) rest
    else bracketScanSpec depth (acc ++ [c]) rest

/-- Modelled from the spec: full spec-described JSON extraction (object or
array, anywhere in the response). -/
def extractJsonSpec (resp : List Char) : Option (List Char) :=
  (dropBeforeAny resp).bind (bracketScanSpec 0 [])

/-- The branch decision of `SoundSyncer.list_remote_files`:
`if response and response.get("status") == "ok"` uses the JSON entries,
otherwise the text-listing fallback runs. Returns true when the text
fallback is used. -/
def listUsedTextFallback {J : Type} (jsonResp : Option J) (statusOk : J → Bool) :
    Bool :=
  match jsonResp with
  | some j => !(statusOk j)
  | none => true

/-- Python `version.lstrip(Char.ofNat 118)` in
`build_and_flash.verify_device_version`: strips every leading `v`. -/
def lstripV (s : List Char) : List Char := s.dropWhile (fun c => c == 'v')

/-- Modelled from the spec: normalization that strips at most one optional
leading `v`, as the spec words it, for comparison with `lstripV`. -/
def stripOneV : List Char → List Char
  | 'v' :: rest => rest
  | s => s

/-- The success condition computed by `verify_device_version`:
normalized version strings equal and integer builds equal. -/
def versionOk (expectedVersion : List Char) (expectedBuild : Nat)
    (actualVersion : List Char) (actualBuild : Nat) : Bool :=
  lstripV actualVersion == lstripV expectedVersion && actualBuild == expectedBuild

/-- Regex `\s` skipping for the JSON field patterns. -/
def skipWs (s : List Char) : List Char :=
  s.dropWhile (fun c => c == ' ' || c == '\t' || c == '\n' || c == '\r')

/-- Suffix just after the first occurrence of `needle` (regex search
position). -/
def dropAfterSub (needle : List Char) : List Char → Option (List Char)
  | [] => none
  | c :: rest =>
    if begWith needle (c :: rest) then some ((c :: rest).drop needle.length)
    else dropAfterSub needle rest

/-- Tail of the pattern `\s*:\s*"([^"]+)"` after the field name: colon,
then a non-empty quoted capture. -/
def parseQuoted (s : List Char) : Option (List Char) :=
  match skipWs s with
  | ':' :: r2 =>
    match skipWs r2 with
    | '"' :: r3 =>
      let v := r3.takeWhile (fun c => c ≠ '"')
      if v = [] then none
      else
        match r3.drop v.length with
        | '"' :: _ => some v
        | _ => none
    | _ => none
  | _ => none

/-- Regex capture `(\d+)` as a number. -/
def parseDigits (s : List Char) : Option Nat :=
  let ds := s.takeWhile (fun c => c.isDigit)
  if ds = [] then none
  else some (ds.foldl (fun n c => n * 10 + (c.toNat - 48)) 0)

/-- The search `re.search(r'"firmware"\s*:\s*"([^"]+)"', response)` of
`verify_device_version`. -/
def parseFirmwareField (resp : List Char) : Option (List Char) :=
  (dropAfterSub (strL "\"firmware\"") resp).bind parseQuoted

/-- The search `re.search(r'"build"\s*:\s*(\d+)', response)` of
`verify_device_version`. -/
def parseBuildField (resp : List Char) : Option Nat :=
  (dropAfterSub (strL "\"build\"") resp).bind fun s =>
    match skipWs s with
    | ':' :: r2 => parseDigits (skipWs r2)
    | _ => none

/--
`build_and_flash.verify_device_version` on the response text, JSON branch:
when both the firmware and build fields parse, return the `versionOk`
comparison together with the reported values; otherwise
`(False, "", 0)` — could not verify. (The labeled-text fallback branch
applies the same `versionOk` comparison to its own regex captures and is
not exercised by these claims, whose responses carry the JSON fields.)
-/
def verify_device_version (expectedV : List Char) (expectedB : Nat)
    (resp : List Char) : Bool × List Char × Nat :=
  match parseFirmwareField resp, parseBuildField resp with
  | some av, some ab => (versionOk expectedV expectedB av ab, av, ab)
  | _, _ => (false, [], 0)

/-- Outcomes of the post-flash verification step in
`build_and_flash.main`. -/
inductive VerifyOutcome : Type
  | verified
  | mismatch
  | couldNotVerify
deriving DecidableEq

/-- The classification in `build_and_flash.main` (`if success`,
`elif actual_version and actual_build` — Python truthiness: non-empty
string and non-zero int — `else` could-not-verify, non-fatal). -/
def classifyVerify (r : Bool × List Char × Nat) : VerifyOutcome :=
  if r.1 then .verified
  else if r.2.1 ≠ [] ∧ r.2.2 ≠ 0 then .mismatch
  else .couldNotVerify

/-- Device response carrying firmware 1.1.0 and build 122. -/
def resp122 : List Char :=
  '{' :: strL "\"firmware\":\"1.1.0\",\"build\":122" ++ ['}']

/-- Device response carrying firmware 1.1.0 and build 121. -/
def resp121 : List Char :=
  '{' :: strL "\"firmware\":\"1.1.0\",\"build\":121" ++ ['}']

/--
The XON wait of the flow-control branch in `SoundSyncer.upload_file`,
`upload_file.upload_file` and `ConfigUploader.upload_file`
(`while True: byte = ser.read(1); if byte == XON: break`), run for `fuel`
iterations: `reads i` is the i-th single-byte read (`none` models
`ser.read(1)` returning empty on timeout). `some i` means the loop broke
at read `i`; `none` means it was still spinning after `fuel` reads —
the loop has no timeout or iteration bound of its own.
-/
def xonWaitFuel (reads : Nat → Option Nat) : Nat → Nat → Option Nat
  | 0, _ => none
  | fuel + 1, i =>
    if reads i = some 17 then some i else xonWaitFuel reads fuel (i + 1)

/-- The flow-control check on one byte read during the chunk-send loop:
an XOFF byte (19) enters the unbounded XON wait; any other read is
handled and the send loop proceeds. `none` propagates the wait never
finishing. -/
def handleXoff (b : Option Nat) (reads : Nat → Option Nat) (fuel : Nat) :
    Option Unit :=
  if b = some 19 then (xonWaitFuel reads fuel 0).map (fun _ => ()) else some ()

/-- A channel whose every single-byte read times out empty. -/
def silentReads : Nat → Option Nat := fun _ => none

/-- Local tree of the sync-planner scenario. -/
def localScenario : List (List Char × Nat) :=
  [(strL "a.wav", 100), (strL "sub/b.wav", 200)]

/-- Remote tree of the sync-planner scenario. -/
def remoteScenario : List (List Char × Nat) :=
  [(strL "A.WAV", 100), (strL "sub/b.wav", 150)]

theorem pySplit_append_sep (m : List Nat) (h : m.contains 10 = false) :
    pySplit 10 (m ++ [10]) = [m, []] := by
  induction m with
  | nil => simp [pySplit]
  | cons b bs ih =>
    simp only [List.contains_cons, Bool.or_eq_false_iff] at h
    have hb : (b == 10) = false :=
      beq_eq_false_iff_ne.mpr fun hh => beq_eq_false_iff_ne.mp h.1 hh.symm
    simp only [List.cons_append, pySplit, hb, Bool.false_eq_true, if_false,
      List.append_eq]
    rw [ih h.2]

theorem demuxChunk_wellChunk (c : List Nat) (h : wellChunk c = true) :
    demuxChunk c = payloadOf c := by
  by_cases hc : c.contains 10
  · unfold wellChunk at h
    rw [hc] at h
    simp only [Bool.not_true, Bool.false_or, Bool.and_eq_true, beq_iff_eq] at h
    obtain ⟨hlast, hm⟩ := h
    have hne : c ≠ [] := by
      intro hnil; rw [hnil] at hlast; simp [List.getLast?] at hlast
    have hsplit : c = c.dropLast ++ [10] := by
      conv_lhs => rw [← List.dropLast_append_getLast hne]
      rw [List.getLast?_eq_getLast c hne] at hlast
      simp at hlast
      rw [hlast]
    unfold markerLine at hm
    simp only [Bool.and_eq_true, Bool.not_eq_true'] at hm
    unfold demuxChunk payloadOf
    rw [hc]
    simp only [if_true]
    conv_lhs => rw [hsplit, pySplit_append_sep _ hm.2]
    rfl
  · unfold demuxChunk payloadOf
    rw [if_neg hc, if_neg hc]

theorem chunksOfAux_flatten (n : Nat) (hn : 0 < n) :
    ∀ (fuel : Nat) (l : List Nat), l.length ≤ fuel →
      (chunksOfAux n fuel l).flatten = l := by
  intro fuel
  induction fuel with
  | zero =>
    intro l h
    have : l = [] := List.length_eq_zero.mp (Nat.le_zero.mp h)
    subst this
    rfl
  | succ f ih =>
    intro l h
    cases l with
    | nil => rfl
    | cons b bs =>
      show ((b :: bs).take n :: chunksOfAux n f ((b :: bs).drop n)).flatten = b :: bs
      rw [List.flatten_cons, ih _ ?_, List.take_append_drop]
      simp only [List.length_drop, List.length_cons]
      simp only [List.length_cons] at h
      omega

theorem chunksOf_flatten (n : Nat) (hn : 0 < n) (l : List Nat) :
    (chunksOf n l).flatten = l :=
  chunksOfAux_flatten n hn l.length l (Nat.le_refl _)

theorem uploadChunks_flatten (l : List Nat) : (uploadChunks l).flatten = l :=
  chunksOf_flatten 512 (by omega) l

theorem downloadLoop_complete (chunks : List (List Nat)) :
    ∀ acc content, acc ++ (chunks.map demuxChunk).flatten = content →
      downloadLoop content.length chunks acc = some content := by
  induction chunks with
  | nil =>
    intro acc content h
    simp at h
    subst h
    simp [downloadLoop]
  | cons c rest ih =>
    intro acc content h
    by_cases hlt : acc.length < content.length
    · rw [downloadLoop]
      simp only [hlt, if_true]
      apply ih
      rw [← h]
      simp [List.append_assoc]
    · have hle : acc.length ≤ content.length := by
        rw [← h]; simp
      have hjoin : ((c :: rest).map demuxChunk).flatten.length = 0 := by
        have hlen := congrArg List.length h
        simp only [List.length_append] at hlen
        omega
      have hnil : ((c :: rest).map demuxChunk).flatten = [] :=
        List.length_eq_zero.mp hjoin
      rw [hnil, List.append_nil] at h
      rw [downloadLoop]
      simp [hlt, h]

theorem uploadFCChunks_true :
    ∀ (cs : List (List Nat)) (lines : List String) (sent : List Nat),
      (uploadFCChunks cs lines sent).2 = true →
      (uploadFCChunks cs lines sent).1 = sent ++ cs.flatten := by
  intro cs
  induction cs with
  | nil => intro lines sent _; simp [uploadFCChunks]
  | cons c cs ih =>
    intro lines sent h
    simp only [uploadFCChunks] at h ⊢
    cases hw : fcWait lines with
    | cont rest =>
      rw [hw] at h
      have h2 : (uploadFCChunks cs rest (sent ++ c)).2 = true := h
      show (uploadFCChunks cs rest (sent ++ c)).1 = sent ++ (c :: cs).flatten
      rw [ih rest (sent ++ c) h2]
      simp [List.flatten_cons, List.append_assoc]
    | errAbort =>
      rw [hw] at h
      have h2 : false = true := h
      exact Bool.noConfusion h2
    | noResp =>
      rw [hw] at h
      have h2 : false = true := h
      exact Bool.noConfusion h2

theorem completionScan_unclear (ls : List String)
    (h : ∀ l ∈ ls, strContains l "SUCCESS" = false ∧ strContains l "ERROR" = false) :
    completionScan ls = .statusUnclear := by
  induction ls with
  | nil => rfl
  | cons l ls ih =>
    have hl := h l (List.mem_cons_self _ _)
    simp only [completionScan, hl.1, hl.2, Bool.false_eq_true, if_false]
    exact ih fun q hq => h q (List.mem_cons_of_mem _ hq)

theorem readyWaitSync_error (pre : List String) (l : String) (post : List String)
    (hpre : ∀ p ∈ pre, strContains p "READY" = false ∧ strContains p "ERROR" = false)
    (hl1 : strContains l "READY" = false) (hl2 : strContains l "ERROR" = true) :
    readyWaitSync (pre ++ l :: post) = .deviceError := by
  induction pre with
  | nil => simp [readyWaitSync, hl1, hl2]
  | cons p ps ih =>
    have hp := hpre p (List.mem_cons_self _ _)
    simp only [List.cons_append, readyWaitSync, hp.1, hp.2, Bool.false_eq_true,
      if_false]
    exact ih fun q hq => hpre q (List.mem_cons_of_mem _ hq)

theorem readyWaitScript_cases (ls : List String) :
    readyWaitScript ls ≠ ReadyR.deviceError := by
  induction ls with
  | nil => simp [readyWaitScript]
  | cons l ls ih =>
    rw [readyWaitScript]
    split
    · simp
    · exact ih

theorem syncUploadLoop_attempted (result : List Char → Bool) :
    ∀ (files : List (List Char × Nat × UploadReason)) (st : Stats),
      (syncUploadLoop result files st).uploaded + (syncUploadLoop result files st).errors
        = st.uploaded + st.errors + files.length := by
  intro files
  induction files with
  | nil => intro st; simp [syncUploadLoop]
  | cons f rest ih =>
    intro st
    obtain ⟨name, size, r⟩ := f
    simp only [syncUploadLoop]
    by_cases h : result name
    · rw [if_pos h, ih]
      simp only [List.length_cons]
      omega
    · rw [if_neg h, ih]
      simp only [List.length_cons]
      omega

theorem syncPlan_fst_tail (remote : List (List Char × Nat))
    (e : List Char × List Char × Nat) (rest : List (List Char × List Char × Nat))
    (x : List Char × Nat × UploadReason) (hx : x ∈ (syncPlan remote rest).1) :
    x ∈ (syncPlan remote (e :: rest)).1 := by
  obtain ⟨k2, o2, s2⟩ := e
  simp only [syncPlan]
  split
  · exact List.mem_cons_of_mem _ hx
  · split
    · exact List.mem_cons_of_mem _ hx
    · exact hx

theorem syncPlan_snd_tail (remote : List (List Char × Nat))
    (e : List Char × List Char × Nat) (rest : List (List Char × List Char × Nat))
    (x : List Char) (hx : x ∈ (syncPlan remote rest).2) :
    x ∈ (syncPlan remote (e :: rest)).2 := by
  obtain ⟨k2, o2, s2⟩ := e
  simp only [syncPlan]
  split
  · exact hx
  · split
    · exact hx
    · exact List.mem_cons_of_mem _ hx

theorem syncPlan_mem (remote : List (List Char × Nat)) :
    ∀ (entries : List (List Char × List Char × Nat)) (k orig : List Char) (size : Nat),
      (k, orig, size) ∈ entries →
      ((dictGet remote k = none →
          (orig, size, UploadReason.fileNew) ∈ (syncPlan remote entries).1) ∧
       (∀ r, dictGet remote k = some r → r ≠ size →
          (orig, size, UploadReason.fileModified) ∈ (syncPlan remote entries).1) ∧
       (dictGet remote k = some size → orig ∈ (syncPlan remote entries).2)) := by
  intro entries
  induction entries with
  | nil => intro k orig size hmem; cases hmem
  | cons e rest ih =>
    intro k orig size hmem
    rcases List.mem_cons.mp hmem with heq | htail
    · obtain ⟨k2, o2, s2⟩ := e
      injection heq with hk hrest2
      injection hrest2 with ho hs
      subst hk; subst ho; subst hs
      refine ⟨?_, ?_, ?_⟩
      · intro hget
        simp only [syncPlan, hget]
        exact List.mem_cons_self _ _
      · intro r hget hne
        simp only [syncPlan, hget]
        rw [if_pos hne]
        exact List.mem_cons_self _ _
      · intro hget
        simp only [syncPlan, hget]
        rw [if_neg (by simp : ¬size ≠ size)]
        exact List.mem_cons_self _ _
    · have hr := ih k orig size htail
      exact ⟨fun hget => syncPlan_fst_tail _ _ _ _ (hr.1 hget),
        fun r hget hne => syncPlan_fst_tail _ _ _ _ (hr.2.1 r hget hne),
        fun hget => syncPlan_snd_tail _ _ _ _ (hr.2.2 hget)⟩

theorem dropBefore_none (resp : List Char) (h : ∀ c ∈ resp, c ≠ '{') :
    dropBefore resp = none := by
  induction resp with
  | nil => rfl
  | cons c rest ih =>
    simp only [dropBefore, if_neg (h c (List.mem_cons_self _ _))]
    exact ih fun q hq => h q (List.mem_cons_of_mem _ hq)

theorem xonWaitFuel_none (reads : Nat → Option Nat) (h : ∀ n, reads n ≠ some 17) :
    ∀ fuel i, xonWaitFuel reads fuel i = none := by
  intro fuel
  induction fuel with
  | zero => intro i; rfl
  | succ f ih =>
    intro i
    simp only [xonWaitFuel, if_neg (h i)]
    exact ih (i + 1)

/--
Claim C1, counterexample: the round trip is not byte-identical for every
file content. Uploading the 2-byte content `[97, 10]` and downloading it
back as the single raw read `[97, 10]` writes nothing: the segment `[97]`
is followed by a newline, so the demultiplexer discards it although it is
not a marker line; the loop never reaches the expected byte count and the
write differs from the original content.
-/
theorem c1_counterexample :
    demuxChunk [97, 10] = [] ∧
    downloadLoop 2 [[97, 10]] [] = none ∧
    downloadLoop 2 [[97, 10]] [] ≠ some [97, 10] := by decide

/--
Claim C1 (amended): the download loop discards every segment that is
followed by a newline byte, marker or not; only a trailing newline-free
segment is appended verbatim. The round trip is byte-identical (hence
hash-identical) whenever the payload contains no newline byte and the
channel delivers it in newline-free reads, with `PROGRESS:`/`SUCCESS:`
status lines arriving as separate newline-terminated reads: the upload
loop sends exactly the file content, and the download loop then writes
exactly the expected byte count, equal to the original content.
-/
theorem c1_claim (content : List Nat) (chunks : List (List Nat))
    (hw : ∀ c ∈ chunks, wellChunk c = true)
    (hp : (chunks.map payloadOf).flatten = content) :
    (uploadChunks content).flatten = content ∧
    downloadLoop content.length chunks [] = some content := by
  have hmap : chunks.map demuxChunk = chunks.map payloadOf :=
    List.map_congr_left fun c hc => demuxChunk_wellChunk c (hw c hc)
  exact ⟨uploadChunks_flatten content,
    downloadLoop_complete chunks [] content (by rw [List.nil_append, hmap, hp])⟩

/-- Witness for the amended C1 theorem at a concrete 3-byte payload split
around a progress line. -/
theorem c1_witness :
    (([[97, 98], bytesOf "PROGRESS: 50" ++ [10], [99]].map payloadOf).flatten
      = [97, 98, 99]) ∧
    ((uploadChunks [97, 98, 99]).flatten = [97, 98, 99] ∧
      downloadLoop ([97, 98, 99] : List Nat).length
        [[97, 98], bytesOf "PROGRESS: 50" ++ [10], [99]] [] = some [97, 98, 99]) :=
  ⟨by decide, c1_claim [97, 98, 99] [[97, 98], bytesOf "PROGRESS: 50" ++ [10], [99]]
    (by decide) (by decide)⟩

/--
Claim C2: the sync planner compares local and remote entries by
case-folded key; a local entry with no remote entry under its folded key
is classified new, a differing size is modified, a matching size is skip;
and on the scenario trees the plan is exactly
`to_upload = [(sub/b.wav, 200, modified)]`, `to_skip = [a.wav]`.
-/
theorem c2_claim :
    (∀ (remote : List (List Char × Nat))
        (entries : List (List Char × List Char × Nat))
        (k orig : List Char) (size : Nat), (k, orig, size) ∈ entries →
        ((dictGet remote k = none →
            (orig, size, UploadReason.fileNew) ∈ (syncPlan remote entries).1) ∧
         (∀ r, dictGet remote k = some r → r ≠ size →
            (orig, size, UploadReason.fileModified) ∈ (syncPlan remote entries).1) ∧
         (dictGet remote k = some size → orig ∈ (syncPlan remote entries).2))) ∧
    syncPlan (remoteLowerDict remoteScenario) (get_local_files localScenario) =
      ([(strL "sub/b.wav", 200, .fileModified)], [strL "a.wav"]) :=
  ⟨fun remote => syncPlan_mem remote, by decide⟩

/-- Witness for C2: in the scenario, the entry `sub/b.wav` has folded key
present remotely with size 150 different from 200, so the modified
classification is in the plan. -/
theorem c2_witness :
    (strL "sub/b.wav", 200, UploadReason.fileModified) ∈
      (syncPlan (remoteLowerDict remoteScenario) (get_local_files localScenario)).1 :=
  (c2_claim.1 (remoteLowerDict remoteScenario) (get_local_files localScenario)
    (strL "sub/b.wav") (strL "sub/b.wav") 200 (by decide)).2.1 150
    (by decide) (by decide)

set_option maxRecDepth 8000 in
/--
Claim C3, counterexample: in `upload_with_flow_control` a terminal
`SUCCESS` received after the first of two chunks does not end the upload
loop early: the remaining chunk (all 65 bytes of a 65-byte file, chunk
size 64) is still sent, and with no further response the function reports
failure, not success — contrary to the claimed early exit with no
remaining data sent.
-/
theorem c3_counterexample :
    (uploadFC (List.replicate 65 7) ["SUCCESS"]).1.length = 65 ∧
    (uploadFC (List.replicate 65 7) ["SUCCESS"]).2 = false ∧
    (uploadFC (List.replicate 65 7) ["SUCCESS"]).1 ≠ List.replicate 64 7 := by
  decide

/--
Claim C3 (amended): a success token received in place of a `NEXT:` token
satisfies that chunk's wait (it is accepted as a response, not a desync),
and the loop then continues with the remaining chunks; the upload is
reported as success only when every chunk got a `NEXT:`/success response,
in which case the full file content was sent — the function never reports
success with data left unsent, and never double-sends.
-/
theorem c3_claim :
    (∀ (ls : List String) (l : String), l ≠ "" → strBegWith l "NEXT:" = false →
        strContains l "SUCCESS" = true → fcWait (l :: ls) = .cont ls) ∧
    (∀ (content : List Nat) (lines : List String),
        (uploadFC content lines).2 = true → (uploadFC content lines).1 = content) := by
  constructor
  · intro ls l h0 h1 h2
    have h0b : (l == "") = false := beq_eq_false_iff_ne.mpr h0
    simp only [fcWait, h0b, h1, h2, Bool.false_eq_true, if_false, if_true]
  · intro content lines h
    unfold uploadFC at h ⊢
    rw [uploadFCChunks_true _ _ _ h, List.nil_append, chunksOf_flatten 64 (by omega)]

/-- Witness for the amended C3 theorem: a success line satisfies a chunk
wait, and a one-chunk upload that reports success sent the whole file. -/
theorem c3_witness :
    fcWait ["SUCCESS: wrote 128 bytes"] = .cont [] ∧
    (uploadFC [5] ["NEXT:64"]).1 = [5] :=
  ⟨c3_claim.1 [] "SUCCESS: wrote 128 bytes" (by decide) (by decide) (by decide),
   c3_claim.2 [5] ["NEXT:64"] (by decide)⟩

/--
Claim C4, counterexample: in `upload_file.upload_file` a response line
containing `ERROR` before `READY` does not abort with a device-reported
failure — the wait only ends on an exact `READY` line or the not-ready
timeout; and a response containing `ERRO R` (as written) interleaved with
a progress line is not classified as a device error by either wait, since
the code tests for the substring `ERROR`.
-/
theorem c4_counterexample :
    readyWaitScript ["ERROR: write failed"] = .notReady ∧
    readyWaitScript ["ERROR: write failed"] ≠ .deviceError ∧
    completionScan ["ERRO R", "PROGRESS: 50%"] = .statusUnclear ∧
    readyWaitSync ["ERRO R", "PROGRESS: 50%"] = .notReady := by decide

/--
Claim C4 (amended): in the sync engine's upload (`SoundSyncer.upload_file`,
and identically `ConfigUploader.upload_file`) any line containing the
substring `ERROR` received before a line containing `READY` aborts the
transfer with a device-reported failure; the standalone upload script's
READY wait never reports a device error (only exact `READY` or the
distinct not-ready timeout end it); and timing out with no lines yields
the not-ready failure in both.
-/
theorem c4_claim :
    (∀ (pre : List String) (l : String) (post : List String),
        (∀ p ∈ pre, strContains p "READY" = false ∧ strContains p "ERROR" = false) →
        strContains l "READY" = false → strContains l "ERROR" = true →
        readyWaitSync (pre ++ l :: post) = .deviceError) ∧
    (∀ ls : List String, readyWaitScript ls ≠ .deviceError) ∧
    readyWaitSync [] = .notReady ∧ readyWaitScript [] = .notReady :=
  ⟨readyWaitSync_error, readyWaitScript_cases, rfl, rfl⟩

/-- Witness for the amended C4 theorem at a concrete line sequence. -/
theorem c4_witness :
    readyWaitSync ["Loading", "ERROR: no space", "READY"] = .deviceError ∧
    readyWaitScript ["junk"] ≠ .deviceError :=
  ⟨c4_claim.1 ["Loading"] "ERROR: no space" ["READY"] (by decide) (by decide)
    (by decide),
   c4_claim.2.1 ["junk"]⟩

/--
Claim C5, counterexample: a completion wait that times out with neither
`SUCCESS` nor `ERROR` is logged as status-unclear but returned as the same
`False` as an explicit device error, and the sync loop counts it in
`stats["errors"]` — it is conflated with hard failure, contrary to the
claim that it is not counted as a hard error.
-/
theorem c5_counterexample :
    syncUploadResult ["READY"] ["PROGRESS: 100%"] = .statusUnclear ∧
    uploadReturn .statusUnclear = uploadReturn .deviceError ∧
    (syncUploadLoop
        (fun _ => uploadReturn (syncUploadResult ["READY"] ["PROGRESS: 100%"]))
        [(strL "a.wav", 100, .fileNew)] initStats).errors = 1 := by decide

/--
Claim C5 (amended): when the completion wait exhausts its window with no
line containing `SUCCESS` or `ERROR`, the outcome is the distinct
status-unclear case — never conflated with success — but the function
returns `False` like an explicit failure, and the caller's statistics
count it in the errors bucket.
-/
theorem c5_claim (readyLines complLines : List String)
    (hr : readyWaitSync readyLines = .ready)
    (hc : ∀ l ∈ complLines,
      strContains l "SUCCESS" = false ∧ strContains l "ERROR" = false) :
    syncUploadResult readyLines complLines = .statusUnclear ∧
    uploadReturn (syncUploadResult readyLines complLines) = false ∧
    ∀ (name : List Char) (size : Nat) (r : UploadReason) (st : Stats),
      (syncUploadLoop (fun _ => uploadReturn (syncUploadResult readyLines complLines))
        [(name, size, r)] st).errors = st.errors + 1 := by
  have hcs := completionScan_unclear complLines hc
  have h1 : syncUploadResult readyLines complLines = .statusUnclear := by
    unfold syncUploadResult
    rw [hr, hcs]
  refine ⟨h1, by rw [h1]; rfl, ?_⟩
  intro name size r st
  simp [syncUploadLoop, h1, uploadReturn]

/-- Witness for the amended C5 theorem at a concrete trace. -/
theorem c5_witness :
    syncUploadResult ["READY"] ["PROGRESS: 10%"] = .statusUnclear ∧
    uploadReturn (syncUploadResult ["READY"] ["PROGRESS: 10%"]) = false ∧
    (syncUploadLoop
        (fun _ => uploadReturn (syncUploadResult ["READY"] ["PROGRESS: 10%"]))
        [(strL "b.wav", 7, .fileModified)] initStats).errors
      = initStats.errors + 1 := by
  have h := c5_claim ["READY"] ["PROGRESS: 10%"] (by decide) (by decide)
  exact ⟨h.1, h.2.1, h.2.2 (strL "b.wav") 7 .fileModified initStats⟩

/--
Claim C6, counterexample: a completed sync run with two hard errors in its
statistics still exits with status 0 — `sync_sounds.main` never turns the
errors count into a non-zero exit status, so the claimed equivalence
between non-zero exit and non-zero errors fails.
-/
theorem c6_counterexample :
    (syncUploadLoop (fun _ => false)
        [(strL "a.wav", 100, .fileNew), (strL "b.wav", 50, .fileModified)]
        initStats).errors = 2 ∧
    syncMainExitCode (syncUploadLoop (fun _ => false)
        [(strL "a.wav", 100, .fileNew), (strL "b.wav", 50, .fileModified)]
        initStats) = 0 ∧
    ¬(syncMainExitCode (syncUploadLoop (fun _ => false)
        [(strL "a.wav", 100, .fileNew), (strL "b.wav", 50, .fileModified)]
        initStats) ≠ 0 ↔
      (syncUploadLoop (fun _ => false)
        [(strL "a.wav", 100, .fileNew), (strL "b.wav", 50, .fileModified)]
        initStats).errors ≠ 0) := by decide

/--
Claim C6 (amended): per-file transfer errors are recorded in the errors
count and do not abort the run — every planned file is attempted — but a
completed `sync_sounds.main` run exits 0 regardless of the errors count
(only exceptions produce a non-zero exit); the standalone upload script is
the one whose exit status is non-zero exactly when its single upload
failed.
-/
theorem c6_claim :
    (∀ (result : List Char → Bool)
        (files : List (List Char × Nat × UploadReason)) (st : Stats),
        (syncUploadLoop result files st).uploaded +
            (syncUploadLoop result files st).errors
          = st.uploaded + st.errors + files.length ∧
        syncMainExitCode (syncUploadLoop result files st) = 0) ∧
    (∀ b, uploadScriptExitCode b ≠ 0 ↔ b = false) := by
  refine ⟨fun result files st => ⟨syncUploadLoop_attempted result files st, rfl⟩, ?_⟩
  intro b
  cases b <;> simp [uploadScriptExitCode]

/-- Witness for the amended C6 theorem at a one-file run. -/
theorem c6_witness :
    ((syncUploadLoop (fun _ => true) [(strL "c.wav", 3, .fileNew)] initStats).uploaded +
        (syncUploadLoop (fun _ => true) [(strL "c.wav", 3, .fileNew)] initStats).errors
      = initStats.uploaded + initStats.errors + 1) ∧
    uploadScriptExitCode false ≠ 0 :=
  ⟨(c6_claim.1 (fun _ => true) [(strL "c.wav", 3, .fileNew)] initStats).1,
   (c6_claim.2 false).mpr rfl⟩

/--
Claim C7, counterexample: the JSON extraction of
`SoundSyncer.send_json_command` scans only for the first opening brace; a
response consisting of a JSON array is returned as the explicit no-JSON
result, where the extraction the spec describes (first brace or bracket,
bracket-depth tracked) would return the balanced array substring.
-/
theorem c7_counterexample :
    extractBraced (strL "[1, 2]") = none ∧
    extractJsonSpec (strL "[1, 2]") = some (strL "[1, 2]") ∧
    extractBraced (strL "[1, 2]") ≠ extractJsonSpec (strL "[1, 2]") := by decide

/--
Claim C7 (amended): the extraction scans for the first `\x7b` only,
tracking brace depth to the matching close, and parses that balanced
object substring even when surrounded by prompt or log text; arrays are
not extracted; a response with no opening brace (and any parse failure)
yields the explicit no-JSON result rather than raising, and the
`list_remote_files` caller then falls back to text-pattern parsing.
-/
theorem c7_claim :
    (∀ resp : List Char, (∀ c ∈ resp, c ≠ '{') → extractBraced resp = none) ∧
    extractBraced (strL "pico> " ++ '{' :: strL "\"status\": \"ok\", \"n\": 1"
        ++ ['}'] ++ strL " log")
      = some ('{' :: strL "\"status\": \"ok\", \"n\": 1" ++ ['}']) ∧
    (∀ (J : Type) (parse : List Char → Option J) (statusOk : J → Bool)
        (resp : List Char), (∀ c ∈ resp, c ≠ '{') →
        listUsedTextFallback (send_json_command parse resp) statusOk = true) := by
  have hnone : ∀ resp : List Char, (∀ c ∈ resp, c ≠ '{') →
      extractBraced resp = none := by
    intro resp h
    unfold extractBraced
    rw [dropBefore_none resp h]
    rfl
  refine ⟨hnone, by decide, ?_⟩
  intro J parse statusOk resp h
  unfold send_json_command
  rw [hnone resp h]
  rfl

/-- Witness for the amended C7 theorem at concrete brace-free responses. -/
theorem c7_witness :
    extractBraced (strL "sd ls: no json here") = none ∧
    listUsedTextFallback
      (send_json_command (fun _ => (none : Option Unit)) (strL "plain text"))
      (fun _ => true) = true :=
  ⟨c7_claim.1 (strL "sd ls: no json here") (by decide),
   c7_claim.2.2 Unit (fun _ => none) (fun _ => true) (strL "plain text") (by decide)⟩

/--
Claim C8, counterexample: the code strips every leading `v` with
`lstrip`, not one optional leading `v`: expected version `vv1.1.0` against
device-reported `1.1.0` with matching builds is declared a success,
although the spec's normalization (strip at most one `v`) leaves the
strings different — so success is not exactly the match of the
one-`v`-stripped strings.
-/
theorem c8_counterexample :
    versionOk (strL "vv1.1.0") 122 (strL "1.1.0") 122 = true ∧
    stripOneV (strL "vv1.1.0") ≠ stripOneV (strL "1.1.0") ∧
    classifyVerify (verify_device_version (strL "vv1.1.0") 122 resp122)
      = .verified := by decide

/--
Claim C8 (amended): verification strips every leading `v` character
(Python `lstrip`) from both version strings and declares success exactly
when the so-normalized strings and the integer builds both match; expected
`(v1.1.0, 122)` against the device JSON with firmware `1.1.0` build `122`
verifies, the same response with build `121` is an explicit mismatch, and
mismatch is a distinct outcome from could-not-verify.
-/
theorem c8_claim :
    (∀ (ev : List Char) (eb : Nat) (av : List Char) (ab : Nat),
        versionOk ev eb av ab = true ↔ (lstripV av = lstripV ev ∧ ab = eb)) ∧
    classifyVerify (verify_device_version (strL "v1.1.0") 122 resp122) = .verified ∧
    classifyVerify (verify_device_version (strL "v1.1.0") 122 resp121) = .mismatch ∧
    VerifyOutcome.mismatch ≠ VerifyOutcome.couldNotVerify := by
  refine ⟨?_, by decide, by decide, by decide⟩
  intro ev eb av ab
  unfold versionOk
  rw [Bool.and_eq_true, beq_iff_eq, beq_iff_eq]

/-- Witness for the amended C8 theorem: the success condition applied at a
concrete matching pair. -/
theorem c8_witness : versionOk (strL "v1.0") 5 (strL "1.0") 5 = true :=
  (c8_claim.1 (strL "v1.0") 5 (strL "1.0") 5).mpr ⟨by decide, rfl⟩

/--
Claim C9: a 0-byte upload still performs the full READY/SUCCESS handshake
— the READY wait runs, zero data chunks are sent, the completion wait
runs — and the outcome is success when the device responds `SUCCESS`.
-/
theorem c9_claim (readyLines complLines : List String)
    (hr : readyWaitSync readyLines = .ready)
    (hc : completionScan complLines = .success) :
    syncUploadRun [] readyLines complLines = ([], .ok) ∧
    uploadChunks [] = [] := by
  have hres : syncUploadResult readyLines complLines = .ok := by
    unfold syncUploadResult
    rw [hr, hc]
  constructor
  · unfold syncUploadRun
    rw [hres, if_pos hr]
    rfl
  · rfl

/-- Witness for C9 at the concrete handshake trace. -/
theorem c9_witness :
    readyWaitSync ["READY"] = ReadyR.ready ∧
    completionScan ["SUCCESS"] = CompletionR.success ∧
    syncUploadRun [] ["READY"] ["SUCCESS"] = ([], .ok) :=
  ⟨by decide, by decide, (c9_claim ["READY"] ["SUCCESS"] (by decide) (by decide)).1⟩

/--
Claim C10: after an XOFF byte (19) is read in the chunk-send loop, the
inner XON wait has no timeout or iteration bound: on a channel that never
delivers an XON byte (17), the wait is still spinning after any number of
reads, so the upload operation does not terminate.
-/
theorem c10_claim (reads : Nat → Option Nat) (h : ∀ n, reads n ≠ some 17) :
    (∀ fuel i, xonWaitFuel reads fuel i = none) ∧
    (∀ fuel, handleXoff (some 19) reads fuel = none) := by
  have hx := xonWaitFuel_none reads h
  refine ⟨hx, fun fuel => ?_⟩
  unfold handleXoff
  rw [if_pos rfl, hx fuel 0]
  rfl

/-- Witness for C10 on the always-empty channel with a concrete bound. -/
theorem c10_witness :
    xonWaitFuel silentReads 9 0 = none ∧
    handleXoff (some 19) silentReads 9 = none :=
  ⟨(c10_claim silentReads (fun _ h => Option.noConfusion h)).1 9 0,
   (c10_claim silentReads (fun _ h => Option.noConfusion h)).2 9⟩

end ScaleFX
